import Mathlib

/-!
Shallow embedding of the orchestration core of the qwen code-interpreter
application (src/lib/llm.ts), and theorems checking the specification
claims about completion streaming, output composition, the
execution-and-recovery loop, and the conversation invariants.

The inference engine and the Pyodide sandbox are external collaborators;
they are embedded as explicit stubs (a scripted completion per streamer
call, a function from code to sandbox result), exactly the shape the
orchestrator consumes them through.
-/

namespace QwenCI

/-- Role tags of chat messages (src/lib/llm.ts, interface Message). -/
inductive Role where
  | system
  | user
  | assistant
deriving DecidableEq, Repr

/-- A chat message (src/lib/llm.ts, interface Message). -/
structure Message where
  role : Role
  content : String
deriving DecidableEq, Repr

/-- Token-usage statistics attached to a completed streaming response
(webllm.CompletionUsage); opaque beyond what display needs. -/
structure CompletionUsage where
  decodeTokensPerSecond : Nat
deriving DecidableEq, Repr

/-- One streamed chunk from the inference engine: an optional text delta
(chunk.choices[0]?.delta.content in src/lib/llm.ts line 126) and an
optional usage summary (chunk.usage, line 128). -/
structure Chunk where
  delta : Option String
  usage : Option CompletionUsage
deriving DecidableEq, Repr

/-- The engine behaviour for one completion request: the chunk sequence it
streams and the final message returned by engine.getMessage()
(src/lib/llm.ts line 134). -/
structure Completion where
  chunks : List Chunk
  finalMessage : String
deriving DecidableEq, Repr

/-- JavaScript truthiness of an optional string: truthy iff present and
nonempty (the checks at src/lib/llm.ts lines 127, 173, 55, 196). -/
def truthyOpt : Option String → Bool
  | none => false
  | some s => s != ""

/-- Outcome of one streamResponse call: either onFinish data or the onError
message. -/
inductive StreamOutcome where
  | finished (text : String) (usage : CompletionUsage)
  | errored (message : String)
deriving DecidableEq, Repr

/-- Observable behaviour of one streamResponse call: the conversations sent
to the engine, the successive onUpdate arguments, and the final outcome. -/
structure StreamResult where
  requests : List (List Message)
  updates : List String
  outcome : StreamOutcome
deriving DecidableEq, Repr

/-- One delta accumulation step (src/lib/llm.ts line 127): extend
currentMessage by the chunk delta when it is truthy. -/
def deltaStep (currentMessage : String) (chunk : Chunk) : String :=
  if truthyOpt chunk.delta then currentMessage ++ chunk.delta.getD ""
  else currentMessage

/-- The chunk loop of streamResponse (src/lib/llm.ts lines 125-132): per
chunk, extend currentMessage by a truthy delta, latch chunk.usage if
present, and invoke onUpdate with the full accumulated text; returns the
onUpdate argument list and the last-seen usage. -/
def streamCore : List Chunk → String → Option CompletionUsage →
    List String × Option CompletionUsage
  | [], _, usage => ([], usage)
  | chunk :: rest, currentMessage, usage =>
    let cur1 := deltaStep currentMessage chunk
    let usage1 := if chunk.usage.isSome then chunk.usage else usage
    let r2 := streamCore rest cur1 usage1
    (cur1 :: r2.1, r2.2)

/-- streamResponse (src/lib/llm.ts lines 103-143). The engine argument is
none when the module-level engine is still null; otherwise it maps the
sent conversation to the engine completion behaviour. On a null engine it
invokes onError "Engine not initialized" and performs no further work;
otherwise it streams the chunks, and requires a usage summary: with one it
finishes with engine.getMessage(), without one the thrown
"Usage data not available" error is caught and routed to onError. -/
def streamResponse (engine : Option (List Message → Completion))
    (messages : List Message) : StreamResult :=
  match engine with
  | none =>
    { requests := [], updates := [],
      outcome := StreamOutcome.errored "Engine not initialized" }
  | some eng =>
    let completion := eng messages
    let r := streamCore completion.chunks "" none
    match r.2 with
    | some usage =>
      { requests := [messages], updates := r.1,
        outcome := StreamOutcome.finished completion.finalMessage usage }
    | none =>
      { requests := [messages], updates := r.1,
        outcome := StreamOutcome.errored "Usage data not available" }

/-- Callback events of one streamResponse call, in invocation order. -/
inductive StreamEvent where
  | update (text : String)
  | finish (text : String) (usage : CompletionUsage)
  | error (message : String)
deriving DecidableEq, Repr

/-- The onUpdate/onFinish/onError invocations of one streamResponse call,
in order. -/
def streamEvents (engine : Option (List Message → Completion))
    (messages : List Message) : List StreamEvent :=
  let r := streamResponse engine messages
  r.updates.map StreamEvent.update ++
    (match r.outcome with
     | StreamOutcome.finished t u => [StreamEvent.finish t u]
     | StreamOutcome.errored m => [StreamEvent.error m])

/-- The text accumulated from the truthy deltas of a chunk list, starting
from a given current message. -/
def accumFrom (currentMessage : String) (chunks : List Chunk) : String :=
  chunks.foldl deltaStep currentMessage

/-- The full accumulated text of a stream: concatenation of all truthy
deltas. -/
def accumText (chunks : List Chunk) : String := accumFrom "" chunks

/-- Recognizer for finish events. -/
def isFinishEvent : StreamEvent → Bool
  | StreamEvent.finish _ _ => true
  | _ => false

/-- The claimed strict-prefix-extension relation between successive
onUpdate texts: the next text extends the previous and differs from it. -/
def strictExt (a b : String) : Bool := a.data.isPrefixOf b.data && a != b

/-- The claimed chain condition on the onUpdate argument list: every
successive text is a strict prefix-extension of the previous one. -/
def strictChain : List String → Bool
  | a :: b :: rest => strictExt a b && strictChain (b :: rest)
  | _ => true

/-- Prefix-extension chain (non-strict): every successive onUpdate text is
the previous text followed by some (possibly empty) suffix. -/
def ExtChain : List String → Prop
  | a :: b :: rest => (∃ t, b = a ++ t) ∧ ExtChain (b :: rest)
  | _ => True

/-- Sandbox execution results object (the results field of PyodideResult).
The orchestrator names this shape ExecutionResult (src/lib/llm.ts lines
25-28) and null-checks both fields (lines 203-204), so both are optional
here. -/
structure ExecutionResult where
  stdout : Option String
  result : Option String
deriving DecidableEq, Repr

/-- Modelled from the spec: the sandbox boundary type PyodideResult is
declared in src/app/hooks/usePyodide, which is not among the sources; per
spec section 6 the sandbox returns structured output or an error, and the
orchestrator destructures exactly the optional fields results and error
from it (src/lib/llm.ts line 195). -/
structure PyodideResult where
  results : Option ExecutionResult
  error : Option String
deriving DecidableEq, Repr

/-- Whether a success field is kept in the composed output: present and
neither empty nor the literal text "null" (src/lib/llm.ts lines 203-204). -/
def keepsField : Option String → Bool
  | none => false
  | some v => v != "" && v != "null"

/-- The success output composition of runAndExplainCode (src/lib/llm.ts
lines 202-204): start from the empty string, append a kept stdout followed
by a newline, then append a kept result. -/
def composeOutput (stdout result : Option String) : String :=
  let output := ""
  let output := if keepsField stdout then output ++ stdout.getD "" ++ "\n" else output
  let output := if keepsField result then output ++ result.getD "" else output
  output

/-- JavaScript String.prototype.trim (used at src/lib/llm.ts line 207):
remove whitespace from both ends; embedded over the character list so
that it evaluates by kernel reduction. -/
def jsTrim (s : String) : String :=
  String.mk
    (((s.data.dropWhile Char.isWhitespace).reverse.dropWhile
        Char.isWhitespace).reverse)

/-- The amended specification-side composition: the concatenation of
stdout-plus-a-trailing-newline and the value, each omitted exactly when
absent, empty, or the literal text "null". -/
def specComposedOutput (stdout result : Option String) : String :=
  (if keepsField stdout then stdout.getD "" ++ "\n" else "") ++
    (if keepsField result then result.getD "" else "")

/-- The system prompt (src/lib/prompts.ts, SYSTEM_PROMPT). -/
def SYSTEM_PROMPT : String :=
  "You are a Python coding assistant with access to a Python REPL environment. You can write and execute code iteratively to solve problems.\n\nWhen solving problems:\n1. You can write multiple code blocks\n2. Each code block will be executed in the same session, preserving variables and state\n3. You can inspect results and write additional code based on previous outputs\n4. Use print() statements to inspect variables and state\n\nImportant package installation rules:\n1. Install packages using: await micropip.install(\x27package-name\x27)\n2. Always use try-except for package installations\n3. Only install required packages\n4. Handle package installation failures gracefully\n\nFormat your responses as markdown code blocks with ```python and ```.\nYou can write multiple blocks to iteratively solve the problem."

/-- The explanation-request template (src/lib/prompts.ts,
EXPLANATION_PROMPT). Imported but removed as unused by src/lib/llm.ts
(line 4); retained here because the spec section 4.4 step 4 describes it. -/
def EXPLANATION_PROMPT (result stdout : String) : String :=
  "Awesome! I ran your code that helped me answer my question. It returned " ++
    result ++ " and the printed output: " ++ stdout ++
    ".\nNow respond to my original question using the result and the printed output, ignoring any message before this one."

/-- The error-recovery message template (src/lib/llm.ts line 45). -/
def errorReportMessage (error code : String) : String :=
  "The code execution resulted in an error: " ++ error ++ "\nCode:\n" ++ code

/-- The success-summary message content appended to the conversation
(src/lib/llm.ts lines 211-214). -/
def successMessage (output : String) : String :=
  "The code executed successfully with the following output: " ++ output

/-- The user-role error report pushed by handleCodeError
(src/lib/llm.ts line 46). -/
def errorReportMsg (error code : String) : Message :=
  { role := Role.user, content := errorReportMessage error code }

/-- The assistant-role success summary pushed by runAndExplainCode
(src/lib/llm.ts lines 211-214). -/
def successReportMsg (output : String) : Message :=
  { role := Role.assistant, content := successMessage output }

/-- Observable callback/collaborator events of one turn, in order.
The first five constructors are the StreamingCallbacks channels
(src/lib/llm.ts lines 17-23); sandboxCall records an executePython
invocation and streamerCall records a streamResponse invocation with the
conversation it was given. -/
inductive TurnEvent where
  | resultUpdate (text : String)
  | codeOutputUpdate (output : String)
  | explanationUpdate (explanation : String)
  | errorUpdate (hasError : Bool)
  | usageUpdate (usage : CompletionUsage)
  | sandboxCall (code : String)
  | streamerCall (conversation : List Message)
deriving DecidableEq, Repr

/-- The external collaborators of one turn: engine readiness, the scripted
engine completion for each successive streamer call, the code extractor
(extractCodeFromMarkdown, imported from src/lib/markdownParser), and the
sandbox. -/
structure TurnConfig where
  engineReady : Bool
  completions : Nat → Completion
  extract : String → Option String
  sandbox : String → PyodideResult

/-- The engine handle seen by the idx-th streamer call of a turn: null when
the engine is not initialized, otherwise the scripted completion. -/
def engineOf (cfg : TurnConfig) (idx : Nat) :
    Option (List Message → Completion) :=
  if cfg.engineReady then some (fun _ => cfg.completions idx) else none

/-- handleError (src/lib/llm.ts lines 31-35): set the error flag and
surface "Error: " followed by the message as the visible result. -/
def handleErrorEvents (message : String) : List TurnEvent :=
  [TurnEvent.errorUpdate true, TurnEvent.resultUpdate ("Error: " ++ message)]

/-- Result of the execution-and-recovery loop: its callback/collaborator
events, the conversation after it, the next engine call index, and whether
it ran to completion within the given fuel (false marks fuel exhaustion,
i.e. a run still recursing after that many recovery attempts). -/
structure LoopResult where
  events : List TurnEvent
  conversation : List Message
  nextCall : Nat
  completed : Bool
deriving DecidableEq, Repr

/-- runAndExplainCode together with the inlined handleCodeError
(src/lib/llm.ts lines 188-219 and 37-64). Executes the code in the
sandbox; on a truthy error it signals the error (handleError) and attempts
recovery: it appends the user-role error report to the conversation,
re-invokes the streamer, and when the new response contains truthy
extractable code recurses on it; on a present results object it composes
the output, signals a nonempty composition on the code-output channel, and
appends the success summary to the conversation; otherwise it does
nothing. Fuel bounds the recursion depth of the embedding only: the
source has no cap. -/
def runAndExplainCode (cfg : TurnConfig) :
    Nat → String → List Message → Nat → LoopResult
  | 0, _, conv, idx =>
    { events := [], conversation := conv, nextCall := idx, completed := false }
  | fuel + 1, code, conv, idx =>
    let r := cfg.sandbox code
    if truthyOpt r.error then
      let e := r.error.getD ""
      let conv1 := conv ++ [errorReportMsg e code]
      let sr := streamResponse (engineOf cfg idx) conv1
      let evS := TurnEvent.streamerCall conv1 :: sr.updates.map TurnEvent.resultUpdate
      match sr.outcome with
      | StreamOutcome.errored m =>
        { events := TurnEvent.sandboxCall code :: handleErrorEvents e ++ evS ++ handleErrorEvents m,
          conversation := conv1, nextCall := idx + 1, completed := true }
      | StreamOutcome.finished response usage =>
        let evF := [TurnEvent.resultUpdate response, TurnEvent.usageUpdate usage]
        let fixedCode := cfg.extract response
        if truthyOpt fixedCode then
          let r2 := runAndExplainCode cfg fuel (fixedCode.getD "") conv1 (idx + 1)
          { events := TurnEvent.sandboxCall code :: handleErrorEvents e ++ evS ++ evF ++ r2.events,
            conversation := r2.conversation, nextCall := r2.nextCall,
            completed := r2.completed }
        else
          { events := TurnEvent.sandboxCall code :: handleErrorEvents e ++ evS ++ evF,
            conversation := conv1, nextCall := idx + 1, completed := true }
    else if r.results.isSome then
      let res := r.results.getD { stdout := none, result := none }
      let output := composeOutput res.stdout res.result
      let evO := if output != "" then [TurnEvent.codeOutputUpdate (jsTrim output)] else []
      let conv1 := conv ++ [successReportMsg output]
      { events := TurnEvent.sandboxCall code :: evO, conversation := conv1,
        nextCall := idx, completed := true }
    else
      { events := [TurnEvent.sandboxCall code], conversation := conv,
        nextCall := idx, completed := true }

/-- The conversation a turn starts from (src/lib/llm.ts lines 158-161):
the system prompt followed by the user question. -/
def initialConversation (input : String) : List Message :=
  [{ role := Role.system, content := SYSTEM_PROMPT },
   { role := Role.user, content := input }]

/-- handleUserInput (src/lib/llm.ts lines 153-182): build the conversation
from the system prompt and the user question, stream a completion, and on
finish extract code and, when truthy, drive the execution-and-recovery
loop. -/
def handleUserInput (cfg : TurnConfig) (fuel : Nat) (input : String) :
    LoopResult :=
  let messages := initialConversation input
  let sr := streamResponse (engineOf cfg 0) messages
  let evS := TurnEvent.streamerCall messages :: sr.updates.map TurnEvent.resultUpdate
  match sr.outcome with
  | StreamOutcome.errored m =>
    { events := evS ++ handleErrorEvents m, conversation := messages,
      nextCall := 1, completed := true }
  | StreamOutcome.finished aiResponse usage =>
    let evF := [TurnEvent.resultUpdate aiResponse, TurnEvent.usageUpdate usage]
    let pythonCode := cfg.extract aiResponse
    if truthyOpt pythonCode then
      let r2 := runAndExplainCode cfg fuel (pythonCode.getD "") messages 1
      { events := evS ++ evF ++ r2.events, conversation := r2.conversation,
        nextCall := r2.nextCall, completed := r2.completed }
    else
      { events := evS ++ evF, conversation := messages, nextCall := 1,
        completed := true }

/-- Recognizer for sandbox invocations in a turn trace. -/
def isSandboxCall : TurnEvent → Bool
  | TurnEvent.sandboxCall _ => true
  | _ => false

/-- Recognizer for streamer invocations in a turn trace. -/
def isStreamerCall : TurnEvent → Bool
  | TurnEvent.streamerCall _ => true
  | _ => false

/-- Recognizer for explanation-channel deliveries in a turn trace. -/
def isExplanationUpdate : TurnEvent → Bool
  | TurnEvent.explanationUpdate _ => true
  | _ => false

/-- Recognizer for error-flag updates in a turn trace. -/
def isErrorUpdate : TurnEvent → Bool
  | TurnEvent.errorUpdate _ => true
  | _ => false

/-- The conversations handed to the streamer in a turn trace, in order. -/
def streamerConvs (events : List TurnEvent) : List (List Message) :=
  events.filterMap fun e =>
    match e with
    | TurnEvent.streamerCall c => some c
    | _ => none

/-- The messages the turn may append after the initial two: an assistant
message (the success summary) or a user-role error report. -/
def appendOk (m : Message) : Prop :=
  m.role = Role.assistant ∨
    (m.role = Role.user ∧ ∃ e c, m.content = errorReportMessage e c)

/-- Engine stub that streams two text deltas and no usage summary. -/
def engNoUsage : List Message → Completion := fun _ =>
  { chunks := [{ delta := some "hi", usage := none },
               { delta := some " there", usage := none }],
    finalMessage := "hi there" }

/-- Engine stub that streams one text chunk and then a usage-only chunk,
as a usage-inclusive stream does. -/
def engTwoChunks : List Message → Completion := fun _ =>
  { chunks := [{ delta := some "ab", usage := none },
               { delta := none, usage := some { decodeTokensPerSecond := 42 } }],
    finalMessage := "ab" }

/-- Engine stub whose final message equals its accumulated deltas. -/
def engHello : List Message → Completion := fun _ =>
  { chunks := [{ delta := some "he", usage := none },
               { delta := some "llo", usage := some { decodeTokensPerSecond := 7 } }],
    finalMessage := "hello" }

/-- The model response of the success-path turn stub. -/
def fenceResponse : String := "```python\nprint(2+2)\n```"

/-- Turn stub for the end-to-end success path: the model streams a python
fence, extraction yields the code, and the sandbox succeeds with
stdout "4\n" and value "None". -/
def cfgSuccessTurn : TurnConfig where
  engineReady := true
  completions := fun _ =>
    { chunks := [{ delta := some fenceResponse,
                   usage := some { decodeTokensPerSecond := 9 } }],
      finalMessage := fenceResponse }
  extract := fun s => if s = fenceResponse then some "print(2+2)" else none
  sandbox := fun _ =>
    { results := some { stdout := some "4\n", result := some "None" },
      error := none }

/-- Turn stub for the recovery loop: the sandbox always returns
Failure "boom" and every re-prompt response contains extractable code. -/
def cfgAlwaysFail : TurnConfig where
  engineReady := true
  completions := fun _ =>
    { chunks := [{ delta := some "```python\nprint(1)\n```",
                   usage := some { decodeTokensPerSecond := 3 } }],
      finalMessage := "```python\nprint(1)\n```" }
  extract := fun _ => some "print(1)"
  sandbox := fun _ => { results := none, error := some "boom" }

/-- Turn stub whose sandbox succeeds with stdout "" and value "null": both
composition fields are suppressed. -/
def cfgNullOutput : TurnConfig where
  engineReady := true
  completions := fun _ => { chunks := [], finalMessage := "" }
  extract := fun _ => none
  sandbox := fun _ =>
    { results := some { stdout := some "", result := some "null" },
      error := none }

/-- Turn stub whose sandbox fails and whose recovery response contains no
extractable code. -/
def cfgFailNoRecovery : TurnConfig where
  engineReady := true
  completions := fun _ =>
    { chunks := [{ delta := some "Sorry",
                   usage := some { decodeTokensPerSecond := 1 } }],
      finalMessage := "Sorry, I cannot fix this." }
  extract := fun _ => none
  sandbox := fun _ => { results := none, error := some "IndexError" }

/-- Turn stub whose sandbox returns a value with neither a results field
nor an error field. -/
def cfgEmptyResult : TurnConfig where
  engineReady := true
  completions := fun _ => { chunks := [], finalMessage := "" }
  extract := fun _ => none
  sandbox := fun _ => { results := none, error := none }

/-! ## Stream-level lemmas -/

theorem streamCore_length (chunks : List Chunk) :
    ∀ (cur : String) (u : Option CompletionUsage),
      (streamCore chunks cur u).1.length = chunks.length := by
  induction chunks with
  | nil => intro cur u; rfl
  | cons ch rest ih => intro cur u; simp [streamCore, ih]

theorem streamCore_getElem (chunks : List Chunk) :
    ∀ (i : Nat) (cur : String) (u : Option CompletionUsage),
      (streamCore chunks cur u).1[i]? =
        if i < chunks.length then some (accumFrom cur (chunks.take (i + 1)))
        else none := by
  induction chunks with
  | nil => intro i cur u; simp [streamCore]
  | cons ch rest ih =>
    intro i cur u
    cases i with
    | zero => simp [streamCore, accumFrom]
    | succ j => simp [streamCore, accumFrom, ih j, Nat.succ_lt_succ_iff]

theorem streamCore_usage_none (chunks : List Chunk) :
    ∀ (cur : String) (u : Option CompletionUsage),
      (∀ ch ∈ chunks, ch.usage = none) → (streamCore chunks cur u).2 = u := by
  induction chunks with
  | nil => intro cur u _; rfl
  | cons ch rest ih =>
    intro cur u h
    have hch : ch.usage = none := h ch (List.mem_cons_self ch rest)
    simp [streamCore, hch, ih _ _ fun c hc => h c (List.mem_cons_of_mem ch hc)]

theorem streamCore_usage_some (chunks : List Chunk) :
    ∀ (cur : String) (u : Option CompletionUsage) (x : CompletionUsage),
      (streamCore chunks cur u).2 = some x →
      u.isSome = true ∨ ∃ ch ∈ chunks, ch.usage.isSome = true := by
  induction chunks with
  | nil =>
    intro cur u x h
    simp only [streamCore] at h
    left
    simp [h]
  | cons ch rest ih =>
    intro cur u x h
    simp only [streamCore] at h
    rcases ih _ _ _ h with h1 | ⟨c, hc, hu⟩
    · by_cases hcu : ch.usage.isSome = true
      · exact Or.inr ⟨ch, List.mem_cons_self ch rest, hcu⟩
      · left
        simpa [hcu] using h1
    · exact Or.inr ⟨c, List.mem_cons_of_mem ch hc, hu⟩

theorem extChain_tail {a : String} {l : List String} (h : ExtChain (a :: l)) :
    ExtChain l := by
  cases l with
  | nil => trivial
  | cons b rest => exact h.2

theorem streamCore_extChain (chunks : List Chunk) :
    ∀ (cur : String) (u : Option CompletionUsage),
      ExtChain (cur :: (streamCore chunks cur u).1) := by
  induction chunks with
  | nil => intro cur u; trivial
  | cons ch rest ih =>
    intro cur u
    refine ⟨?_, ih _ _⟩
    unfold deltaStep
    by_cases h : truthyOpt ch.delta = true
    · exact ⟨ch.delta.getD "", by simp [h]⟩
    · exact ⟨"", by simp [h, String.append_empty]⟩

theorem streamResponse_updates (eng : List Message → Completion)
    (messages : List Message) :
    (streamResponse (some eng) messages).updates =
      (streamCore (eng messages).chunks "" none).1 := by
  unfold streamResponse
  cases hsc : (streamCore (eng messages).chunks "" none).2 <;> simp [hsc]

theorem countP_finish_map_update (l : List String) :
    (l.map StreamEvent.update).countP isFinishEvent = 0 := by
  induction l with
  | nil => rfl
  | cons a rest ih => simp [List.countP_cons, isFinishEvent, ih]

/-! ## Claim theorems: Completion Streamer -/

/-- C7: a streamResponse call made while the engine is not initialized
invokes onError with "Engine not initialized" and performs no further
work: it sends no request to the engine, invokes no onUpdate, and invokes
no onFinish. -/
theorem c7_engine_not_ready (messages : List Message) :
    streamResponse none messages =
      { requests := [], updates := [],
        outcome := StreamOutcome.errored "Engine not initialized" } ∧
    streamEvents none messages = [StreamEvent.error "Engine not initialized"] :=
  ⟨rfl, rfl⟩

/-- C4: a stream that never yields a usage summary ends in
onError "Usage data not available" and never invokes onFinish; conversely
onFinish is only reached when some chunk carried a usage summary. -/
theorem c4_usage_required (eng : List Message → Completion)
    (messages : List Message) :
    ((∀ ch ∈ (eng messages).chunks, ch.usage = none) →
      (streamResponse (some eng) messages).outcome =
        StreamOutcome.errored "Usage data not available" ∧
      (streamEvents (some eng) messages).countP isFinishEvent = 0) ∧
    (∀ t u, (streamResponse (some eng) messages).outcome =
        StreamOutcome.finished t u →
      ∃ ch ∈ (eng messages).chunks, ch.usage.isSome = true) := by
  constructor
  · intro h
    have h2 : (streamCore (eng messages).chunks "" none).2 = none :=
      streamCore_usage_none _ _ _ h
    have hout : (streamResponse (some eng) messages).outcome =
        StreamOutcome.errored "Usage data not available" := by
      unfold streamResponse
      simp [h2]
    refine ⟨hout, ?_⟩
    simp [streamEvents, hout, List.countP_append, countP_finish_map_update,
      List.countP_cons, isFinishEvent]
  · intro t u h
    cases hsc : (streamCore (eng messages).chunks "" none).2 with
    | none => simp [streamResponse, hsc] at h
    | some x =>
      rcases streamCore_usage_some _ _ _ _ hsc with h1 | h2
      · simp at h1
      · exact h2

/-- C5 counterexample: the chunk loop invokes onUpdate on every chunk,
including a usage-only chunk carrying no text delta, so two successive
onUpdate texts can be equal; the claimed strict prefix-extension chain
fails on this concrete two-chunk stream. -/
theorem c5_counterexample :
    (streamResponse (some engTwoChunks) []).updates = ["ab", "ab"] ∧
    strictChain (streamResponse (some engTwoChunks) []).updates = false := by
  decide

/-- C5 amended: each successive onUpdate call receives the full text
accumulated from the truthy deltas so far, and each successive text is a
prefix-extension of the previous one (never shorter, never reordered),
though not always a strict one: a chunk with no text delta, such as the
usage-only final chunk, repeats the previous text. -/
theorem c5_amended_accumulated_prefix_chain (eng : List Message → Completion)
    (messages : List Message) (i : Nat) :
    (streamResponse (some eng) messages).updates.length =
      (eng messages).chunks.length ∧
    (streamResponse (some eng) messages).updates[i]? =
      (if i < (eng messages).chunks.length then
        some (accumFrom "" ((eng messages).chunks.take (i + 1)))
      else none) ∧
    ExtChain (streamResponse (some eng) messages).updates := by
  rw [streamResponse_updates]
  exact ⟨streamCore_length _ _ _, streamCore_getElem _ i _ _,
    extChain_tail (streamCore_extChain _ "" none)⟩

/-! ## Loop branch equations -/

theorem runAEC_zero (cfg : TurnConfig) (code : String) (conv : List Message)
    (idx : Nat) :
    runAndExplainCode cfg 0 code conv idx =
      { events := [], conversation := conv, nextCall := idx,
        completed := false } := rfl

theorem runAEC_fail_errored (cfg : TurnConfig) (n : Nat) (code : String)
    (conv : List Message) (idx : Nat) (m : String)
    (he : truthyOpt (cfg.sandbox code).error = true)
    (hout : (streamResponse (engineOf cfg idx)
        (conv ++ [errorReportMsg ((cfg.sandbox code).error.getD "") code])).outcome =
      StreamOutcome.errored m) :
    runAndExplainCode cfg (n + 1) code conv idx =
      { events := TurnEvent.sandboxCall code ::
          handleErrorEvents ((cfg.sandbox code).error.getD "") ++
          (TurnEvent.streamerCall
              (conv ++ [errorReportMsg ((cfg.sandbox code).error.getD "") code]) ::
            (streamResponse (engineOf cfg idx)
                (conv ++ [errorReportMsg ((cfg.sandbox code).error.getD "") code])).updates.map
              TurnEvent.resultUpdate) ++
          handleErrorEvents m,
        conversation := conv ++ [errorReportMsg ((cfg.sandbox code).error.getD "") code],
        nextCall := idx + 1, completed := true } := by
  simp [runAndExplainCode, he, hout]

theorem runAEC_fail_finished_code (cfg : TurnConfig) (n : Nat) (code : String)
    (conv : List Message) (idx : Nat) (t : String) (u : CompletionUsage)
    (he : truthyOpt (cfg.sandbox code).error = true)
    (hout : (streamResponse (engineOf cfg idx)
        (conv ++ [errorReportMsg ((cfg.sandbox code).error.getD "") code])).outcome =
      StreamOutcome.finished t u)
    (hfx : truthyOpt (cfg.extract t) = true) :
    runAndExplainCode cfg (n + 1) code conv idx =
      { events := TurnEvent.sandboxCall code ::
          handleErrorEvents ((cfg.sandbox code).error.getD "") ++
          (TurnEvent.streamerCall
              (conv ++ [errorReportMsg ((cfg.sandbox code).error.getD "") code]) ::
            (streamResponse (engineOf cfg idx)
                (conv ++ [errorReportMsg ((cfg.sandbox code).error.getD "") code])).updates.map
              TurnEvent.resultUpdate) ++
          [TurnEvent.resultUpdate t, TurnEvent.usageUpdate u] ++
          (runAndExplainCode cfg n ((cfg.extract t).getD "")
            (conv ++ [errorReportMsg ((cfg.sandbox code).error.getD "") code])
            (idx + 1)).events,
        conversation := (runAndExplainCode cfg n ((cfg.extract t).getD "")
          (conv ++ [errorReportMsg ((cfg.sandbox code).error.getD "") code])
          (idx + 1)).conversation,
        nextCall := (runAndExplainCode cfg n ((cfg.extract t).getD "")
          (conv ++ [errorReportMsg ((cfg.sandbox code).error.getD "") code])
          (idx + 1)).nextCall,
        completed := (runAndExplainCode cfg n ((cfg.extract t).getD "")
          (conv ++ [errorReportMsg ((cfg.sandbox code).error.getD "") code])
          (idx + 1)).completed } := by
  simp [runAndExplainCode, he, hout, hfx]

theorem runAEC_fail_finished_nocode (cfg : TurnConfig) (n : Nat) (code : String)
    (conv : List Message) (idx : Nat) (t : String) (u : CompletionUsage)
    (he : truthyOpt (cfg.sandbox code).error = true)
    (hout : (streamResponse (engineOf cfg idx)
        (conv ++ [errorReportMsg ((cfg.sandbox code).error.getD "") code])).outcome =
      StreamOutcome.finished t u)
    (hfx : truthyOpt (cfg.extract t) = false) :
    runAndExplainCode cfg (n + 1) code conv idx =
      { events := TurnEvent.sandboxCall code ::
          handleErrorEvents ((cfg.sandbox code).error.getD "") ++
          (TurnEvent.streamerCall
              (conv ++ [errorReportMsg ((cfg.sandbox code).error.getD "") code]) ::
            (streamResponse (engineOf cfg idx)
                (conv ++ [errorReportMsg ((cfg.sandbox code).error.getD "") code])).updates.map
              TurnEvent.resultUpdate) ++
          [TurnEvent.resultUpdate t, TurnEvent.usageUpdate u],
        conversation := conv ++ [errorReportMsg ((cfg.sandbox code).error.getD "") code],
        nextCall := idx + 1, completed := true } := by
  simp [runAndExplainCode, he, hout, hfx]

theorem runAEC_success (cfg : TurnConfig) (n : Nat) (code : String)
    (conv : List Message) (idx : Nat) (res : ExecutionResult)
    (he : truthyOpt (cfg.sandbox code).error = false)
    (hres : (cfg.sandbox code).results = some res) :
    runAndExplainCode cfg (n + 1) code conv idx =
      { events := TurnEvent.sandboxCall code ::
          (if composeOutput res.stdout res.result != "" then
            [TurnEvent.codeOutputUpdate (jsTrim (composeOutput res.stdout res.result))]
          else []),
        conversation := conv ++ [successReportMsg (composeOutput res.stdout res.result)],
        nextCall := idx, completed := true } := by
  simp [runAndExplainCode, he, hres]

theorem runAEC_silent (cfg : TurnConfig) (n : Nat) (code : String)
    (conv : List Message) (idx : Nat)
    (he : truthyOpt (cfg.sandbox code).error = false)
    (hres : (cfg.sandbox code).results = none) :
    runAndExplainCode cfg (n + 1) code conv idx =
      { events := [TurnEvent.sandboxCall code], conversation := conv,
        nextCall := idx, completed := true } := by
  simp [runAndExplainCode, he, hres]

/-- C6: when a stream completes with a usage summary, onFinish is invoked
exactly once, as the last event, and — given that the engine's
getMessage() result is the accumulation of its streamed deltas — the text
passed to onFinish is the full accumulated text. -/
theorem c6_finish_once_with_accumulated_text (eng : List Message → Completion)
    (messages : List Message) (t : String) (u : CompletionUsage) :
    (streamResponse (some eng) messages).outcome = StreamOutcome.finished t u →
    (eng messages).finalMessage = accumText (eng messages).chunks →
    t = accumText (eng messages).chunks ∧
    streamEvents (some eng) messages =
      (streamResponse (some eng) messages).updates.map StreamEvent.update ++
        [StreamEvent.finish t u] ∧
    (streamEvents (some eng) messages).countP isFinishEvent = 1 := by
  intro h hfm
  have ht : t = (eng messages).finalMessage := by
    cases hsc : (streamCore (eng messages).chunks "" none).2 with
    | none => simp [streamResponse, hsc] at h
    | some x =>
      simp [streamResponse, hsc] at h
      exact h.1.symm
  refine ⟨ht.trans hfm, ?_, ?_⟩
  · simp [streamEvents, h]
  · simp [streamEvents, h, List.countP_append, countP_finish_map_update,
      List.countP_cons, isFinishEvent]

/-! ## Trace bookkeeping lemmas -/

@[simp] theorem streamerConvs_nil : streamerConvs [] = [] := rfl

@[simp] theorem streamerConvs_append (l1 l2 : List TurnEvent) :
    streamerConvs (l1 ++ l2) = streamerConvs l1 ++ streamerConvs l2 := by
  simp [streamerConvs]

@[simp] theorem streamerConvs_resultUpdate (s : String) (l : List TurnEvent) :
    streamerConvs (TurnEvent.resultUpdate s :: l) = streamerConvs l := by
  simp [streamerConvs]

@[simp] theorem streamerConvs_codeOutputUpdate (s : String) (l : List TurnEvent) :
    streamerConvs (TurnEvent.codeOutputUpdate s :: l) = streamerConvs l := by
  simp [streamerConvs]

@[simp] theorem streamerConvs_errorUpdate (b : Bool) (l : List TurnEvent) :
    streamerConvs (TurnEvent.errorUpdate b :: l) = streamerConvs l := by
  simp [streamerConvs]

@[simp] theorem streamerConvs_usageUpdate (u : CompletionUsage) (l : List TurnEvent) :
    streamerConvs (TurnEvent.usageUpdate u :: l) = streamerConvs l := by
  simp [streamerConvs]

@[simp] theorem streamerConvs_sandboxCall (s : String) (l : List TurnEvent) :
    streamerConvs (TurnEvent.sandboxCall s :: l) = streamerConvs l := by
  simp [streamerConvs]

@[simp] theorem streamerConvs_streamerCall (c : List Message) (l : List TurnEvent) :
    streamerConvs (TurnEvent.streamerCall c :: l) = c :: streamerConvs l := by
  simp [streamerConvs]

@[simp] theorem streamerConvs_map_resultUpdate (us : List String) :
    streamerConvs (us.map TurnEvent.resultUpdate) = [] := by
  induction us with
  | nil => rfl
  | cons a rest ih => simp [ih]

@[simp] theorem countP_sandbox_map_resultUpdate (us : List String) :
    (us.map TurnEvent.resultUpdate).countP isSandboxCall = 0 := by
  induction us with
  | nil => rfl
  | cons a rest ih => simp [List.countP_cons, isSandboxCall, ih]

@[simp] theorem filter_sandbox_map_resultUpdate (us : List String) :
    (us.map TurnEvent.resultUpdate).filter isSandboxCall = [] := by
  induction us with
  | nil => rfl
  | cons a rest ih => simp [List.filter_cons, isSandboxCall, ih]

theorem exists_cons_of_head_some {α : Type} {a : α} {l : List α}
    (h : l.head? = some a) : ∃ t, l = a :: t := by
  cases l with
  | nil => simp at h
  | cons x xs =>
    simp at h
    exact ⟨xs, by rw [h]⟩

/-- Every positive-fuel loop invocation records the sandbox call on its
code as its first event, in every branch. -/
theorem runAEC_events_head (cfg : TurnConfig) (n : Nat) (code : String)
    (conv : List Message) (idx : Nat) :
    (runAndExplainCode cfg (n + 1) code conv idx).events.head? =
      some (TurnEvent.sandboxCall code) := by
  by_cases he : truthyOpt (cfg.sandbox code).error = true
  · cases hout : (streamResponse (engineOf cfg idx)
        (conv ++ [errorReportMsg ((cfg.sandbox code).error.getD "") code])).outcome with
    | errored m =>
      rw [runAEC_fail_errored cfg n code conv idx m he hout]
      rfl
    | finished t u =>
      by_cases hfx : truthyOpt (cfg.extract t) = true
      · rw [runAEC_fail_finished_code cfg n code conv idx t u he hout hfx]
        rfl
      · have hfx' : truthyOpt (cfg.extract t) = false := by simpa using hfx
        rw [runAEC_fail_finished_nocode cfg n code conv idx t u he hout hfx']
        rfl
  · have he' : truthyOpt (cfg.sandbox code).error = false := by simpa using he
    cases hres : (cfg.sandbox code).results with
    | some res =>
      rw [runAEC_success cfg n code conv idx res he' hres]
      rfl
    | none =>
      rw [runAEC_silent cfg n code conv idx he' hres]
      rfl

theorem runAEC_events_cons (cfg : TurnConfig) (n : Nat) (code : String)
    (conv : List Message) (idx : Nat) :
    ∃ l, (runAndExplainCode cfg (n + 1) code conv idx).events =
      TurnEvent.sandboxCall code :: l :=
  exists_cons_of_head_some (runAEC_events_head cfg n code conv idx)

/-- Conversation invariant of the execution-and-recovery loop: the final
conversation extends the input conversation by appends only, every
appended message is a permitted kind, and every conversation handed to the
streamer extends the input conversation. -/
theorem runAEC_conversation (cfg : TurnConfig) :
    ∀ (fuel : Nat) (code : String) (conv : List Message) (idx : Nat),
      ∃ tail,
        (runAndExplainCode cfg fuel code conv idx).conversation = conv ++ tail ∧
        (∀ m ∈ tail, appendOk m) ∧
        (∀ c ∈ streamerConvs (runAndExplainCode cfg fuel code conv idx).events,
          conv <+: c) := by
  intro fuel
  induction fuel with
  | zero =>
    intro code conv idx
    refine ⟨[], by simp [runAEC_zero], by simp, ?_⟩
    simp [runAEC_zero]
  | succ n ih =>
    intro code conv idx
    by_cases he : truthyOpt (cfg.sandbox code).error = true
    · cases hout : (streamResponse (engineOf cfg idx)
          (conv ++ [errorReportMsg ((cfg.sandbox code).error.getD "") code])).outcome with
      | errored m =>
        rw [runAEC_fail_errored cfg n code conv idx m he hout]
        refine ⟨[errorReportMsg ((cfg.sandbox code).error.getD "") code], rfl, ?_, ?_⟩
        · intro x hx
          rw [List.mem_singleton] at hx
          subst hx
          exact Or.inr ⟨rfl, _, _, rfl⟩
        · intro c hc
          simp [handleErrorEvents] at hc
          subst hc
          exact ⟨_, rfl⟩
      | finished t u =>
        by_cases hfx : truthyOpt (cfg.extract t) = true
        · rw [runAEC_fail_finished_code cfg n code conv idx t u he hout hfx]
          obtain ⟨tail2, h1, h2, h3⟩ := ih ((cfg.extract t).getD "")
            (conv ++ [errorReportMsg ((cfg.sandbox code).error.getD "") code]) (idx + 1)
          refine ⟨errorReportMsg ((cfg.sandbox code).error.getD "") code :: tail2,
            ?_, ?_, ?_⟩
          · simpa [List.append_assoc] using h1
          · intro x hx
            rcases List.mem_cons.mp hx with hx1 | hx2
            · subst hx1
              exact Or.inr ⟨rfl, _, _, rfl⟩
            · exact h2 x hx2
          · intro c hc
            simp [handleErrorEvents] at hc
            rcases hc with hc1 | hc2
            · subst hc1
              exact ⟨_, rfl⟩
            · exact List.IsPrefix.trans ⟨_, rfl⟩ (h3 c hc2)
        · have hfx' : truthyOpt (cfg.extract t) = false := by simpa using hfx
          rw [runAEC_fail_finished_nocode cfg n code conv idx t u he hout hfx']
          refine ⟨[errorReportMsg ((cfg.sandbox code).error.getD "") code], rfl, ?_, ?_⟩
          · intro x hx
            rw [List.mem_singleton] at hx
            subst hx
            exact Or.inr ⟨rfl, _, _, rfl⟩
          · intro c hc
            simp [handleErrorEvents] at hc
            subst hc
            exact ⟨_, rfl⟩
    · have he' : truthyOpt (cfg.sandbox code).error = false := by simpa using he
      cases hres : (cfg.sandbox code).results with
      | some res =>
        rw [runAEC_success cfg n code conv idx res he' hres]
        refine ⟨[successReportMsg (composeOutput res.stdout res.result)], rfl, ?_, ?_⟩
        · intro x hx
          rw [List.mem_singleton] at hx
          subst hx
          exact Or.inl rfl
        · intro c hc
          simp [apply_ite streamerConvs] at hc
      | none =>
        rw [runAEC_silent cfg n code conv idx he' hres]
        exact ⟨[], by simp, by simp, by simp⟩

/-! ## Turn controller branch equations -/

theorem handleUserInput_errored (cfg : TurnConfig) (fuel : Nat) (input : String)
    (m : String)
    (hout : (streamResponse (engineOf cfg 0) (initialConversation input)).outcome =
      StreamOutcome.errored m) :
    handleUserInput cfg fuel input =
      { events := (TurnEvent.streamerCall (initialConversation input) ::
          (streamResponse (engineOf cfg 0) (initialConversation input)).updates.map
            TurnEvent.resultUpdate) ++ handleErrorEvents m,
        conversation := initialConversation input, nextCall := 1,
        completed := true } := by
  simp [handleUserInput, hout]

theorem handleUserInput_finished_nocode (cfg : TurnConfig) (fuel : Nat)
    (input : String) (t : String) (u : CompletionUsage)
    (hout : (streamResponse (engineOf cfg 0) (initialConversation input)).outcome =
      StreamOutcome.finished t u)
    (hfx : truthyOpt (cfg.extract t) = false) :
    handleUserInput cfg fuel input =
      { events := (TurnEvent.streamerCall (initialConversation input) ::
          (streamResponse (engineOf cfg 0) (initialConversation input)).updates.map
            TurnEvent.resultUpdate) ++
          [TurnEvent.resultUpdate t, TurnEvent.usageUpdate u],
        conversation := initialConversation input, nextCall := 1,
        completed := true } := by
  simp [handleUserInput, hout, hfx]

theorem handleUserInput_finished_code (cfg : TurnConfig) (fuel : Nat)
    (input : String) (t : String) (u : CompletionUsage)
    (hout : (streamResponse (engineOf cfg 0) (initialConversation input)).outcome =
      StreamOutcome.finished t u)
    (hfx : truthyOpt (cfg.extract t) = true) :
    handleUserInput cfg fuel input =
      { events := (TurnEvent.streamerCall (initialConversation input) ::
          (streamResponse (engineOf cfg 0) (initialConversation input)).updates.map
            TurnEvent.resultUpdate) ++
          ([TurnEvent.resultUpdate t, TurnEvent.usageUpdate u] ++
            (runAndExplainCode cfg fuel ((cfg.extract t).getD "")
              (initialConversation input) 1).events),
        conversation := (runAndExplainCode cfg fuel ((cfg.extract t).getD "")
          (initialConversation input) 1).conversation,
        nextCall := (runAndExplainCode cfg fuel ((cfg.extract t).getD "")
          (initialConversation input) 1).nextCall,
        completed := (runAndExplainCode cfg fuel ((cfg.extract t).getD "")
          (initialConversation input) 1).completed } := by
  simp [handleUserInput, hout, hfx]

/-! ## Claim theorems: output composition -/

theorem composeOutput_eq_spec (stdout result : Option String) :
    composeOutput stdout result = specComposedOutput stdout result := by
  unfold composeOutput specComposedOutput
  by_cases h1 : keepsField stdout = true <;> by_cases h2 : keepsField result = true <;>
    simp [h1, h2, String.empty_append, String.append_empty]

/-- C2 counterexample: the success composition appends a newline after a
kept stdout, so the sandbox result with stdout "5\n" and value "10"
composes to "5\n\n10", not to the exact concatenation "5\n10" the claim
states. -/
theorem c2_counterexample :
    composeOutput (some "5\n") (some "10") = "5\n\n10" ∧
    composeOutput (some "5\n") (some "10") ≠ "5\n10" := by
  decide

/-- C2 amended: the composed output is the concatenation of
stdout-plus-a-trailing-newline and the value, each omitted exactly when
absent, empty, or the literal text "null"; the sandbox result with
stdout "" and value "null" composes to the empty output and the loop then
signals nothing for display, and the result with stdout "5\n" and
value "10" composes to "5\n\n10". -/
theorem c2_amended_composition :
    (∀ stdout result : Option String,
      composeOutput stdout result = specComposedOutput stdout result) ∧
    composeOutput (some "") (some "null") = "" ∧
    composeOutput (some "5\n") (some "10") = "5\n\n10" ∧
    runAndExplainCode cfgNullOutput 1 "code" [] 0 =
      { events := [TurnEvent.sandboxCall "code"],
        conversation := [successReportMsg ""], nextCall := 0,
        completed := true } :=
  ⟨composeOutput_eq_spec, by decide, by decide, by decide⟩

/-! ## Claim theorems: turn controller and recovery loop -/

/-- C1 evidence: on the end-to-end success path the turn makes exactly one
Completion Streamer call (the initial one), the sandbox runs once and
succeeds, and yet no further streamer call is made and nothing is ever
delivered on the explanation channel: the explanation step described by
the spec (and by the comment above runAndExplainCode itself) is missing
from src/lib/llm.ts. -/
theorem c1_success_no_explanation_stream :
    (handleUserInput cfgSuccessTurn 5 "What is 2+2?").events.countP isStreamerCall = 1 ∧
    (handleUserInput cfgSuccessTurn 5 "What is 2+2?").events.countP isSandboxCall = 1 ∧
    (handleUserInput cfgSuccessTurn 5 "What is 2+2?").events.countP isErrorUpdate = 0 ∧
    (handleUserInput cfgSuccessTurn 5 "What is 2+2?").events.countP isExplanationUpdate = 0 ∧
    (handleUserInput cfgSuccessTurn 5 "What is 2+2?").completed = true := by
  decide

/-- C3 evidence: with a sandbox stub that always returns Failure "boom"
and a model stub whose every re-prompt response contains extractable code,
the execution-and-recovery loop performs one sandbox call per unit of fuel
and is still not completed at any fuel bound: the mutual recursion of
runAndExplainCode and handleCodeError has no recovery-attempt cap, so no
bounded terminal failed state is reached. -/
theorem c3_unbounded_recovery :
    ∀ (fuel : Nat) (code : String) (conv : List Message) (idx : Nat),
      (runAndExplainCode cfgAlwaysFail fuel code conv idx).completed = false ∧
      (runAndExplainCode cfgAlwaysFail fuel code conv idx).events.countP
        isSandboxCall = fuel := by
  intro fuel
  induction fuel with
  | zero => intro code conv idx; exact ⟨rfl, rfl⟩
  | succ n ih =>
    intro code conv idx
    have he : truthyOpt (cfgAlwaysFail.sandbox code).error = true := rfl
    have hout : (streamResponse (engineOf cfgAlwaysFail idx)
        (conv ++ [errorReportMsg ((cfgAlwaysFail.sandbox code).error.getD "") code])).outcome =
        StreamOutcome.finished "```python\nprint(1)\n```"
          { decodeTokensPerSecond := 3 } := rfl
    have hfx : truthyOpt (cfgAlwaysFail.extract "```python\nprint(1)\n```") = true := rfl
    rw [runAEC_fail_finished_code cfgAlwaysFail n code conv idx
      "```python\nprint(1)\n```" { decodeTokensPerSecond := 3 } he hout hfx]
    have hupd : (streamResponse (engineOf cfgAlwaysFail idx)
        (conv ++ [errorReportMsg ((cfgAlwaysFail.sandbox code).error.getD "") code])).updates =
        ["```python\nprint(1)\n```"] := rfl
    obtain ⟨ih1, ih2⟩ := ih ((cfgAlwaysFail.extract "```python\nprint(1)\n```").getD "")
      (conv ++ [errorReportMsg ((cfgAlwaysFail.sandbox code).error.getD "") code]) (idx + 1)
    refine ⟨ih1, ?_⟩
    simp [hupd, List.countP_cons, List.countP_append, handleErrorEvents,
      isSandboxCall, ih2]

/-- C10: when the sandbox result carries neither a results field nor an
error field, the loop performs no observable action beyond the sandbox
invocation itself: no callback is invoked, the conversation is unchanged,
and the turn ends there. -/
theorem c10_no_observable_action (cfg : TurnConfig) (fuel : Nat)
    (code : String) (conv : List Message) (idx : Nat)
    (h : cfg.sandbox code = { results := none, error := none }) :
    runAndExplainCode cfg (fuel + 1) code conv idx =
      { events := [TurnEvent.sandboxCall code], conversation := conv,
        nextCall := idx, completed := true } :=
  runAEC_silent cfg fuel code conv idx (by rw [h]; rfl) (by rw [h])

/-- C10 witness: the silent branch at a concrete stub whose sandbox
returns an object with neither field. -/
theorem c10_no_observable_action_witness :
    runAndExplainCode cfgEmptyResult 1 "x" [] 0 =
      { events := [TurnEvent.sandboxCall "x"], conversation := [],
        nextCall := 0, completed := true } :=
  c10_no_observable_action cfgEmptyResult 0 "x" [] 0 (by decide)

/-- C8: the conversation of a turn starts as the system prompt followed by
the user question and only grows by appends for the rest of the turn: its
first two messages stay the initial two, every later message is an
assistant response or a user-role error report, and every conversation
handed to the streamer extends the initial conversation. -/
theorem c8_conversation_invariant (cfg : TurnConfig) (fuel : Nat)
    (input : String) :
    (handleUserInput cfg fuel input).conversation.take 2 =
      initialConversation input ∧
    (∀ m ∈ (handleUserInput cfg fuel input).conversation.drop 2, appendOk m) ∧
    (∀ c ∈ streamerConvs (handleUserInput cfg fuel input).events,
      initialConversation input <+: c) := by
  cases hout : (streamResponse (engineOf cfg 0) (initialConversation input)).outcome with
  | errored m =>
    rw [handleUserInput_errored cfg fuel input m hout]
    refine ⟨rfl, ?_, ?_⟩
    · intro x hx
      simp [initialConversation] at hx
    · intro c hc
      simp [handleErrorEvents] at hc
      subst hc
      exact List.prefix_refl _
  | finished t u =>
    by_cases hfx : truthyOpt (cfg.extract t) = true
    · rw [handleUserInput_finished_code cfg fuel input t u hout hfx]
      obtain ⟨tail, h1, h2, h3⟩ := runAEC_conversation cfg fuel
        ((cfg.extract t).getD "") (initialConversation input) 1
      refine ⟨?_, ?_, ?_⟩
      · dsimp only
        rw [h1]
        simp [initialConversation]
      · intro x hx
        dsimp only at hx
        rw [h1] at hx
        simp only [initialConversation, List.cons_append, List.nil_append,
          List.drop_succ_cons, List.drop_zero] at hx
        exact h2 x hx
      · intro c hc
        dsimp only at hc
        simp [handleErrorEvents] at hc
        rcases hc with hc1 | hc2
        · subst hc1
          exact List.prefix_refl _
        · exact h3 c hc2
    · have hfx' : truthyOpt (cfg.extract t) = false := by simpa using hfx
      rw [handleUserInput_finished_nocode cfg fuel input t u hout hfx']
      refine ⟨rfl, ?_, ?_⟩
      · intro x hx
        simp [initialConversation] at hx
      · intro c hc
        simp [handleErrorEvents] at hc
        subst hc
        exact List.prefix_refl _

/-- C8 witness: on the success-path turn stub the single appended message
is the assistant success summary, a permitted append. -/
theorem c8_conversation_invariant_witness :
    appendOk (successReportMsg "4\n\nNone") :=
  (c8_conversation_invariant cfgSuccessTurn 5 "What is 2+2?").2.1
    (successReportMsg "4\n\nNone") (by decide)

/-- C9: on a truthy sandbox failure the loop signals the error state (sets
the error flag and surfaces "Error: " followed by the reason as the
visible result), appends the user-role error report and re-invokes the
streamer on the updated conversation, and performs a second sandbox call
exactly when the recovery response finishes with truthy extractable code,
in which case that call runs the newly extracted code. -/
theorem c9_failure_signals_and_recovers (cfg : TurnConfig) (fuel : Nat)
    (code : String) (conv : List Message) (idx : Nat)
    (he : truthyOpt (cfg.sandbox code).error = true) :
    ((runAndExplainCode cfg (fuel + 2) code conv idx).events.take 4 =
      [TurnEvent.sandboxCall code, TurnEvent.errorUpdate true,
       TurnEvent.resultUpdate ("Error: " ++ (cfg.sandbox code).error.getD ""),
       TurnEvent.streamerCall
         (conv ++ [errorReportMsg ((cfg.sandbox code).error.getD "") code])]) ∧
    (2 ≤ (runAndExplainCode cfg (fuel + 2) code conv idx).events.countP
        isSandboxCall ↔
      ∃ t u, (streamResponse (engineOf cfg idx)
          (conv ++ [errorReportMsg ((cfg.sandbox code).error.getD "") code])).outcome =
        StreamOutcome.finished t u ∧ truthyOpt (cfg.extract t) = true) ∧
    (∀ t u, (streamResponse (engineOf cfg idx)
        (conv ++ [errorReportMsg ((cfg.sandbox code).error.getD "") code])).outcome =
        StreamOutcome.finished t u → truthyOpt (cfg.extract t) = true →
      ((runAndExplainCode cfg (fuel + 2) code conv idx).events.filter
        isSandboxCall)[1]? =
        some (TurnEvent.sandboxCall ((cfg.extract t).getD ""))) := by
  cases hout : (streamResponse (engineOf cfg idx)
      (conv ++ [errorReportMsg ((cfg.sandbox code).error.getD "") code])).outcome with
  | errored m =>
    rw [runAEC_fail_errored cfg (fuel + 1) code conv idx m he hout]
    refine ⟨?_, ?_, ?_⟩
    · simp [handleErrorEvents]
    · constructor
      · intro h2
        simp [handleErrorEvents, List.countP_cons, List.countP_append,
          isSandboxCall, Function.comp] at h2
      · rintro ⟨t, u, ht, -⟩
        simp at ht
    · intro t u ht htr
      simp at ht
  | finished t0 u0 =>
    by_cases hfx : truthyOpt (cfg.extract t0) = true
    · rw [runAEC_fail_finished_code cfg (fuel + 1) code conv idx t0 u0 he hout hfx]
      obtain ⟨l, hl⟩ := runAEC_events_cons cfg fuel ((cfg.extract t0).getD "")
        (conv ++ [errorReportMsg ((cfg.sandbox code).error.getD "") code]) (idx + 1)
      refine ⟨?_, ?_, ?_⟩
      · simp [handleErrorEvents]
      · constructor
        · intro _
          exact ⟨t0, u0, rfl, hfx⟩
        · intro _
          simp [handleErrorEvents, hl, List.countP_cons, List.countP_append,
            isSandboxCall, Function.comp]
          omega
      · intro t u ht htr
        injection ht with h1 h2
        subst h1
        subst h2
        simp [handleErrorEvents, List.filter_cons, List.filter_append,
          isSandboxCall, hl]
    · have hfx' : truthyOpt (cfg.extract t0) = false := by simpa using hfx
      rw [runAEC_fail_finished_nocode cfg (fuel + 1) code conv idx t0 u0 he hout hfx']
      refine ⟨?_, ?_, ?_⟩
      · simp [handleErrorEvents]
      · constructor
        · intro h2
          simp [handleErrorEvents, List.countP_cons, List.countP_append,
            isSandboxCall, Function.comp] at h2
        · rintro ⟨t, u, ht, htr⟩
          injection ht with h1 h2
          subst h1
          rw [hfx'] at htr
          exact Bool.noConfusion htr
      · intro t u ht htr
        injection ht with h1 h2
        subst h1
        rw [hfx'] at htr
        exact Bool.noConfusion htr

/-- C9 witness: a concrete failing execution whose recovery response
contains no code: the error is signaled, the error report is streamed, and
no second sandbox call happens. -/
theorem c9_failure_signals_and_recovers_witness :
    (runAndExplainCode cfgFailNoRecovery 2 "bad" [] 0).events.take 4 =
      [TurnEvent.sandboxCall "bad", TurnEvent.errorUpdate true,
       TurnEvent.resultUpdate "Error: IndexError",
       TurnEvent.streamerCall [errorReportMsg "IndexError" "bad"]] ∧
    ¬ 2 ≤ (runAndExplainCode cfgFailNoRecovery 2 "bad" [] 0).events.countP
        isSandboxCall := by
  obtain ⟨h1, h2, h3⟩ := c9_failure_signals_and_recovers cfgFailNoRecovery
    0 "bad" [] 0 (by decide)
  refine ⟨h1, ?_⟩
  intro hc
  obtain ⟨t, u, ht, htr⟩ := h2.mp hc
  have hs : (streamResponse (engineOf cfgFailNoRecovery 0)
      ([] ++ [errorReportMsg ((cfgFailNoRecovery.sandbox "bad").error.getD "") "bad"])).outcome =
      StreamOutcome.finished "Sorry, I cannot fix this."
        { decodeTokensPerSecond := 1 } := by decide
  rw [hs] at ht
  injection ht with ha hb
  rw [← ha] at htr
  exact Bool.noConfusion htr

/-- C4 witness: a concrete stream with text deltas and no usage summary
ends in the usage error and never invokes onFinish. -/
theorem c4_usage_required_witness :
    (streamResponse (some engNoUsage) []).outcome =
      StreamOutcome.errored "Usage data not available" ∧
    (streamEvents (some engNoUsage) []).countP isFinishEvent = 0 :=
  (c4_usage_required engNoUsage []).1 (by decide)

/-- C6 witness: a concrete successful stream finishes exactly once with
the accumulated text "hello". -/
theorem c6_finish_once_with_accumulated_text_witness :
    "hello" = accumText (engHello []).chunks ∧
    (streamEvents (some engHello) []).countP isFinishEvent = 1 := by
  obtain ⟨h1, h2, h3⟩ := c6_finish_once_with_accumulated_text engHello []
    "hello" { decodeTokensPerSecond := 7 } (by decide) (by decide)
  exact ⟨h1, h3⟩

end QwenCI
